import Mathlib

/-!
# Verification of the aleo-pool-server core

A shallow embedding of the PPLNS accounting engine (`src/accounting.rs`),
the Stratum codec (`stratum/src/codec.rs`), the connection handshake and
submit validation (`src/connection.rs`), and the admin HTTP route
(`src/api.rs`), with theorems settling the specification's claims about
them.

Machine `u64` values are modelled as `Nat`; wherever the Rust code
inspects the `u64` range (`serde_json::Number::as_u64`) the bound
`2 ^ 64` appears explicitly.  A Rust `unwrap()` that can panic is
modelled by returning `Option.none` (the operation aborts the program),
so every embedded operation is total.
-/

namespace AleoPool

/-! ## PPLNS data model (`src/accounting.rs`) -/

/-- A weighted share: `struct Share { value: u64, owner: String }`. -/
structure Share where
  value : Nat
  owner : String
deriving Repr, DecidableEq

/-- The PPLNS state: `struct PPLNS { queue: VecDeque<Share>, current_n, n }`.
The `VecDeque` front is the head of the list. -/
structure PPLNS where
  queue : List Share
  current_n : Nat
  n : Nat
deriving Repr, DecidableEq

/-- Sum of the queued share values. -/
def queueSum (q : List Share) : Nat := (q.map Share.value).sum

/-- The eviction loop shared by `set_n` and `add_share`:
`while *current_n > n { let share = self.queue.pop_front().unwrap(); *current_n -= share.value; }`.
`none` models the panic of `pop_front().unwrap()` on an empty queue. -/
def drainLoop (n : Nat) : List Share → Nat → Option (List Share × Nat)
  | [], c => if n < c then none else some ([], c)
  | s :: rest, c => if n < c then drainLoop n rest (c - s.value) else some (s :: rest, c)

/-- `PPLNS::set_n`: if the new `n` is below the stored one, drain from the
head until `current_n ≤ n`; then store the new `n`. -/
def PPLNS.set_n (st : PPLNS) (m : Nat) : Option PPLNS :=
  if m < st.n then
    match drainLoop m st.queue st.current_n with
    | some (q, c) => some ⟨q, c, m⟩
    | none => none
  else
    some ⟨st.queue, st.current_n, m⟩

/-- `PPLNS::add_share`: push the share at the tail, add its value to
`current_n`, then drain from the head while `current_n > n`. -/
def PPLNS.add_share (st : PPLNS) (sh : Share) : Option PPLNS :=
  match drainLoop st.n (st.queue ++ [sh]) (st.current_n + sh.value) with
  | some (q, c) => some ⟨q, c, st.n⟩
  | none => none

/-- The state `PPLNS::load` builds when no state file exists:
empty queue, `current_n = 0`, `n = 0`. -/
def emptyPPLNS : PPLNS := ⟨[], 0, 0⟩

/-- One accounting operation on the PPLNS state. -/
inductive PPLNSOp where
  | addShare (sh : Share)
  | setN (m : Nat)
deriving Repr, DecidableEq

/-- Apply one operation. -/
def applyOp (st : PPLNS) : PPLNSOp → Option PPLNS
  | .addShare sh => st.add_share sh
  | .setN m => st.set_n m

/-- Apply a sequence of operations, aborting if any operation panics. -/
def applyOps (st : PPLNS) : List PPLNSOp → Option PPLNS
  | [] => some st
  | op :: ops =>
    match applyOp st op with
    | some st' => applyOps st' ops
    | none => none

/-- The PPLNS bookkeeping invariant: `current_n` is the sum of the queued
values and never exceeds the window size `n`. -/
def Inv (st : PPLNS) : Prop :=
  st.current_n = queueSum st.queue ∧ st.current_n ≤ st.n

/-! ### The drain loop on a coherent state -/

/-- When `current_n` is the sum of the queue, the drain loop never hits the
empty-queue panic: it returns a suffix of the queue whose sum is the new
`current_n`, bounded by `n`. -/
theorem drainLoop_spec (n : Nat) (q : List Share) :
    ∃ t q', drainLoop n q (queueSum q) = some (q', queueSum q') ∧
      queueSum q' ≤ n ∧ q = t ++ q' := by
  induction q with
  | nil =>
    refine ⟨[], [], ?_, Nat.zero_le n, rfl⟩
    simp [drainLoop, queueSum]
  | cons s rest ih =>
    by_cases h : n < queueSum (s :: rest)
    · obtain ⟨t, q', hrun, hle, heq⟩ := ih
      refine ⟨s :: t, q', ?_, hle, by simp [heq]⟩
      have hsum : queueSum (s :: rest) - s.value = queueSum rest := by
        simp [queueSum, Nat.add_sub_cancel_left]
      rw [drainLoop, if_pos h, hsum, hrun]
    · exact ⟨[], s :: rest, by rw [drainLoop, if_neg h], Nat.le_of_not_lt h, rfl⟩

/-- `set_n` never panics on a coherent state and preserves the invariant;
the surviving queue is a suffix of the original one. -/
theorem set_n_preserves (st : PPLNS) (m : Nat) (h : Inv st) :
    ∃ st' t, st.set_n m = some st' ∧ Inv st' ∧ st'.n = m ∧
      st.queue = t ++ st'.queue := by
  obtain ⟨hsum, hle⟩ := h
  by_cases hm : m < st.n
  · obtain ⟨t, q', hrun, hle', heq⟩ := drainLoop_spec m st.queue
    refine ⟨⟨q', queueSum q', m⟩, t, ?_, ⟨rfl, hle'⟩, rfl, heq⟩
    rw [PPLNS.set_n, if_pos hm, hsum, hrun]
  · refine ⟨⟨st.queue, st.current_n, m⟩, [], by rw [PPLNS.set_n, if_neg hm],
      ⟨hsum, ?_⟩, rfl, rfl⟩
    exact le_trans hle (Nat.le_of_not_lt hm)

/-- `add_share` never panics on a coherent state and preserves the invariant;
the surviving queue is a suffix of the original queue with the new share
appended. -/
theorem add_share_preserves (st : PPLNS) (sh : Share) (h : Inv st) :
    ∃ st' t, st.add_share sh = some st' ∧ Inv st' ∧ st'.n = st.n ∧
      st.queue ++ [sh] = t ++ st'.queue := by
  obtain ⟨hsum, _⟩ := h
  obtain ⟨t, q', hrun, hle', heq⟩ := drainLoop_spec st.n (st.queue ++ [sh])
  have hsum' : queueSum (st.queue ++ [sh]) = st.current_n + sh.value := by
    simp [queueSum, hsum]
  rw [hsum'] at hrun
  exact ⟨⟨q', queueSum q', st.n⟩, t, by rw [PPLNS.add_share, hrun], ⟨rfl, hle'⟩, rfl, heq⟩

/-- Any operation sequence from an invariant state lands in an invariant state. -/
theorem applyOps_preserves (ops : List PPLNSOp) (st : PPLNS) (h : Inv st) :
    ∃ st', applyOps st ops = some st' ∧ Inv st' := by
  induction ops generalizing st with
  | nil => exact ⟨st, rfl, h⟩
  | cons op ops ih =>
    cases op with
    | addShare sh =>
      obtain ⟨st', _, hrun, h', _, _⟩ := add_share_preserves st sh h
      obtain ⟨st'', hrun', h''⟩ := ih st' h'
      exact ⟨st'', by rw [applyOps, applyOp, hrun]; exact hrun', h''⟩
    | setN m =>
      obtain ⟨st', _, hrun, h', _, _⟩ := set_n_preserves st m h
      obtain ⟨st'', hrun', h''⟩ := ih st' h'
      exact ⟨st'', by rw [applyOps, applyOp, hrun]; exact hrun', h''⟩

/-- C1: after any sequence of `add_share`/`set_n` from the empty state,
`current_n` equals the sum of the queued values and, whenever `n > 0`,
`current_n ≤ n`.  (The bound in fact holds for `n = 0` as well.) -/
theorem claim_C1 (ops : List PPLNSOp) (st' : PPLNS)
    (h : applyOps emptyPPLNS ops = some st') :
    st'.current_n = queueSum st'.queue ∧ (0 < st'.n → st'.current_n ≤ st'.n) := by
  obtain ⟨st'', hrun, hinv⟩ := applyOps_preserves ops emptyPPLNS ⟨rfl, Nat.le_refl 0⟩
  rw [h] at hrun
  cases Option.some.injEq .. ▸ hrun
  exact ⟨hinv.1, fun _ => hinv.2⟩

/-- Witness for C1 at a concrete operation sequence: `set_n(6)`, then
shares of value 3 and 5; the second insertion evicts the first share. -/
theorem claim_C1_witness :
    applyOps emptyPPLNS [.setN 6, .addShare ⟨3, "A"⟩, .addShare ⟨5, "B"⟩] =
      some ⟨[⟨5, "B"⟩], 5, 6⟩ ∧
    ((5 : Nat) = queueSum [⟨5, "B"⟩] ∧ ((0 : Nat) < 6 → (5 : Nat) ≤ 6)) :=
  ⟨by decide,
    claim_C1 [.setN 6, .addShare ⟨3, "A"⟩, .addShare ⟨5, "B"⟩]
      ⟨[⟨5, "B"⟩], 5, 6⟩ (by decide)⟩

/-! ## Per-owner aggregation (`Accounting::pplns_to_provers_shares`) -/

/-- One step of the aggregation fold: add `v` to an existing owner entry or
insert a fresh one (the assoc list plays the role of the `HashMap`). -/
def addToOwner : List (String × Nat) → String → Nat → List (String × Nat)
  | [], o, v => [(o, v)]
  | (k, x) :: rest, o, v =>
    if k = o then (k, x + v) :: rest else (k, x) :: addToOwner rest o v

/-- `Accounting::pplns_to_provers_shares`: fold the queue into a per-owner
sum map and return the number of distinct owners with the map. -/
def provers_shares (q : List Share) : Nat × List (String × Nat) :=
  let m := q.foldl (fun acc sh => addToOwner acc sh.owner sh.value) []
  (m.length, m)

/-! ## Claim C3: the two-step `set_n(6)` scenario -/

/-- C3 counterexample: from queue `[(3,A),(5,B),(2,A)]` with `n = 10`,
`current_n = 10`, the first `set_n(6)` already drains down to `[(2,A)]`
with `current_n = 2`; it does not stop at `[(5,B),(2,A)]` with
`current_n = 7` as the claim states. -/
theorem claim_C3_counterexample :
    PPLNS.set_n ⟨[⟨3, "A"⟩, ⟨5, "B"⟩, ⟨2, "A"⟩], 10, 10⟩ 6 =
      some ⟨[⟨2, "A"⟩], 2, 6⟩ ∧
    PPLNS.set_n ⟨[⟨3, "A"⟩, ⟨5, "B"⟩, ⟨2, "A"⟩], 10, 10⟩ 6 ≠
      some ⟨[⟨5, "B"⟩, ⟨2, "A"⟩], 7, 6⟩ := by decide

/-- C3 amended: the first `set_n(6)` drains the queue to `[(2,A)]` with
`current_n = 2` in one pass (the loop runs while `current_n > 6`), and a
second `set_n(6)` leaves the state unchanged since `6 < 6` fails. -/
theorem claim_C3 :
    PPLNS.set_n ⟨[⟨3, "A"⟩, ⟨5, "B"⟩, ⟨2, "A"⟩], 10, 10⟩ 6 =
      some ⟨[⟨2, "A"⟩], 2, 6⟩ ∧
    PPLNS.set_n ⟨[⟨2, "A"⟩], 2, 6⟩ 6 = some ⟨[⟨2, "A"⟩], 2, 6⟩ := by decide

/-! ## Claim C5: `set_n(0)` -/

/-- C5 counterexample: a reachable, invariant-satisfying state on which
`set_n(0)` leaves the queue non-empty.  A share of value 0 is admitted
by `add_share`, and the drain loop of `set_n(0)` stops as soon as
`current_n = 0`, never popping it. -/
theorem claim_C5_counterexample :
    applyOps emptyPPLNS [.setN 5, .addShare ⟨0, "A"⟩] = some ⟨[⟨0, "A"⟩], 0, 5⟩ ∧
    PPLNS.set_n ⟨[⟨0, "A"⟩], 0, 5⟩ 0 = some ⟨[⟨0, "A"⟩], 0, 0⟩ ∧
    PPLNS.queue ⟨[⟨0, "A"⟩], 0, 0⟩ ≠ [] := by decide

/-- C5 amended: on a coherent state, `set_n(0)` succeeds with
`current_n = 0` and every share still queued has value 0; the queue is
empty whenever every queued share has a strictly positive value. -/
theorem claim_C5 (st : PPLNS) (h : Inv st) :
    ∃ st', st.set_n 0 = some st' ∧ st'.current_n = 0 ∧
      (∀ sh ∈ st'.queue, sh.value = 0) ∧
      ((∀ sh ∈ st.queue, 0 < sh.value) → st'.queue = []) := by
  obtain ⟨st', t, hrun, hinv', hn, hqueue⟩ := set_n_preserves st 0 h
  have hc : st'.current_n = 0 := Nat.le_zero.mp (hn ▸ hinv'.2)
  have hzero : ∀ sh ∈ st'.queue, sh.value = 0 := by
    intro sh hsh
    have hsum0 : queueSum st'.queue = 0 := hc ▸ hinv'.1.symm
    have := List.sum_eq_zero_iff.mp hsum0 sh.value (List.mem_map_of_mem Share.value hsh)
    exact this
  refine ⟨st', hrun, hc, hzero, ?_⟩
  intro hpos
  cases hq : st'.queue with
  | nil => rfl
  | cons s rest =>
    have hmem : s ∈ st.queue := by
      rw [hqueue, hq]; exact List.mem_append_right t (List.mem_cons_self s rest)
    have h1 : 0 < s.value := hpos s hmem
    have h2 : s.value = 0 := hzero s (hq ▸ List.mem_cons_self s rest)
    omega

/-- C5 witness at a concrete coherent state. -/
theorem claim_C5_witness :
    ∃ st', PPLNS.set_n ⟨[⟨0, "A"⟩], 0, 5⟩ 0 = some st' ∧ st'.current_n = 0 ∧
      (∀ sh ∈ st'.queue, sh.value = 0) ∧
      ((∀ sh ∈ PPLNS.queue ⟨[⟨0, "A"⟩], 0, 5⟩, 0 < sh.value) → st'.queue = []) :=
  claim_C5 ⟨[⟨0, "A"⟩], 0, 5⟩ ⟨by decide, by decide⟩

/-! ## Claim C9: an oversized share flushes the whole queue -/

/-- C9: on a coherent state, `add_share` with a share worth strictly more
than `n` evicts everything — the previously queued shares and the new
share itself — leaving the empty queue and `current_n = 0`; in particular
the per-owner share map is empty, so the share's owner gets no credit. -/
theorem claim_C9 (st : PPLNS) (sh : Share) (h : Inv st) (hv : st.n < sh.value) :
    st.add_share sh = some ⟨[], 0, st.n⟩ ∧ (provers_shares ([] : List Share)).2 = [] := by
  obtain ⟨st', t, hrun, hinv', hn, hqueue⟩ := add_share_preserves st sh h
  have hempty : st'.queue = [] := by
    rcases List.eq_nil_or_concat st'.queue with hq | ⟨l, a, hq⟩
    · exact hq
    · exfalso
      rw [List.concat_eq_append] at hq
      rw [hq, ← List.append_assoc] at hqueue
      obtain ⟨-, h2⟩ := List.append_inj' hqueue.symm rfl
      have ha : a = sh := by simpa using h2
      have : sh.value ≤ queueSum st'.queue := by
        rw [hq, ha, queueSum]; simp
      have := le_trans this (hinv'.1 ▸ hinv'.2)
      omega
  have hc : st'.current_n = 0 := by
    rw [hinv'.1, hempty]; rfl
  refine ⟨?_, rfl⟩
  rw [hrun]
  congr 1
  cases st'
  simp_all

/-- C9 witness: a share of value 4 against `n = 3` flushes the queue. -/
theorem claim_C9_witness :
    PPLNS.add_share ⟨[⟨2, "A"⟩], 2, 3⟩ ⟨4, "B"⟩ = some ⟨[], 0, 3⟩ ∧
      (provers_shares ([] : List Share)).2 = [] :=
  claim_C9 ⟨[⟨2, "A"⟩], 2, 3⟩ ⟨4, "B"⟩ ⟨by decide, by decide⟩ (by decide)

/-! ## Claim C7: `PPLNS::load` -/

/-- The observable condition of the persisted state file: absent, present
but failing to decode, or decoding to a state.  The decoding itself is
done by the external `savefile` library; this type abstracts its outcome. -/
inductive StateFile where
  | missing
  | corrupt
  | valid (st : PPLNS)
deriving DecidableEq

/-- `PPLNS::load`: when the state file does not exist it returns the fresh
state (empty queue, `Default::default()` counters); otherwise it runs
`load_file(..).unwrap()`, whose panic on a decode failure aborts startup
(modelled as `none`). -/
def PPLNS.load : StateFile → Option PPLNS
  | .missing => some ⟨[], 0, 0⟩
  | .corrupt => none
  | .valid st => some st

/-- C7: a missing state file loads as the empty state with `n = 0` and
`current_n = 0`; a file that exists but fails to decode makes `load` abort
startup instead of silently resetting. -/
theorem claim_C7 :
    PPLNS.load .missing = some ⟨[], 0, 0⟩ ∧ PPLNS.load .corrupt = none :=
  ⟨rfl, rfl⟩

/-! ## Claim C8: the admin HTTP route (`src/api.rs`) -/

/-- A peer IP address, v4 or v6 (v6 as eight 16-bit groups). -/
inductive IpAddr where
  | v4 (a b c d : Nat)
  | v6 (segs : List Nat)
deriving DecidableEq

/-- `IpAddr::is_loopback`: `127.0.0.0/8` for v4, `::1` for v6. -/
def IpAddr.is_loopback : IpAddr → Bool
  | .v4 a _ _ _ => a == 127
  | .v6 segs => segs == [0, 0, 0, 0, 0, 0, 0, 1]

/-- A peer socket address. -/
structure SocketAddr where
  ip : IpAddr
  port : Nat
deriving DecidableEq

/-- The JSON body of `Accounting::current_round`: `n`, `current_n`, the
prover count and the per-owner `shares` map. -/
structure RoundSnapshot where
  n : Nat
  current_n : Nat
  provers : Nat
  shares : List (String × Nat)
deriving DecidableEq

/-- `Accounting::current_round` on a PPLNS state. -/
def current_round (st : PPLNS) : RoundSnapshot :=
  ⟨st.n, st.current_n, (provers_shares st.queue).1, (provers_shares st.queue).2⟩

/-- An HTTP reply of the admin route: a JSON body with status 200, or the
`405 Method Not Allowed` rejection. -/
inductive ApiReply where
  | okJson (body : RoundSnapshot)
  | methodNotAllowed
deriving DecidableEq

/-- The HTTP status code of a reply. -/
def ApiReply.status : ApiReply → Nat
  | .okJson _ => 200
  | .methodNotAllowed => 405

/-- `admin_current_round`: serve the full snapshot to loopback peers,
reject everyone else with `405`. -/
def admin_current_round (addr : SocketAddr) (st : PPLNS) : ApiReply :=
  if addr.ip.is_loopback then .okJson (current_round st) else .methodNotAllowed

/-- C8: a `GET /admin/current_round` from a loopback peer gets status 200
with the full round snapshot (including the `shares` map); any other peer
gets `405 Method Not Allowed`. -/
theorem claim_C8 (addr : SocketAddr) (st : PPLNS) :
    (addr.ip.is_loopback = true →
      admin_current_round addr st = .okJson (current_round st) ∧
      (admin_current_round addr st).status = 200 ∧
      (current_round st).shares = (provers_shares st.queue).2) ∧
    (addr.ip.is_loopback = false →
      admin_current_round addr st = .methodNotAllowed ∧
      (admin_current_round addr st).status = 405) := by
  constructor <;> intro h <;>
    simp [admin_current_round, h, ApiReply.status, current_round]

/-- C8 witness: `127.0.0.1` is served, `8.8.8.8` is rejected. -/
theorem claim_C8_witness :
    (admin_current_round ⟨.v4 127 0 0 1, 4000⟩ ⟨[⟨2, "A"⟩], 2, 10⟩ =
        .okJson (current_round ⟨[⟨2, "A"⟩], 2, 10⟩) ∧
      (admin_current_round ⟨.v4 127 0 0 1, 4000⟩ ⟨[⟨2, "A"⟩], 2, 10⟩).status = 200 ∧
      (current_round ⟨[⟨2, "A"⟩], 2, 10⟩).shares =
        (provers_shares [⟨2, "A"⟩]).2) ∧
    (admin_current_round ⟨.v4 8 8 8 8, 4000⟩ ⟨[⟨2, "A"⟩], 2, 10⟩ =
        .methodNotAllowed ∧
      (admin_current_round ⟨.v4 8 8 8 8, 4000⟩ ⟨[⟨2, "A"⟩], 2, 10⟩).status = 405) :=
  ⟨(claim_C8 ⟨.v4 127 0 0 1, 4000⟩ ⟨[⟨2, "A"⟩], 2, 10⟩).1 (by decide),
    (claim_C8 ⟨.v4 8 8 8 8, 4000⟩ ⟨[⟨2, "A"⟩], 2, 10⟩).2 (by decide)⟩

/-! ## The Stratum codec (`stratum/src/codec.rs`)

The codec is modelled at the level of the JSON tree: `encode` builds the
tree that `serde_json::to_vec` prints, and `decode` consumes the tree
that `serde_json::from_slice` parses out of a frame.  Numbers are
integers (the messages at issue never carry floats); `Number::as_u64`
appears as an explicit `2 ^ 64` range check. -/

/-- A JSON value as handled by `serde_json`. -/
inductive Json where
  | null
  | bool (b : Bool)
  | num (n : Int)
  | str (s : String)
  | arr (items : List Json)
  | obj (fields : List (String × Json))

/-- A JSON-RPC request id (`json_rpc_types::Id`, an external crate type):
untagged, either a `u64` or a string. -/
inductive RpcId where
  | num (n : Nat)
  | str (s : String)
deriving Repr, DecidableEq

/-- A JSON-RPC error object (`json_rpc_types::Error<()>`, external crate):
a numeric code and a message; the optional `data` payload is absent for
the `()` instantiation used by the codec. -/
structure RpcError where
  code : Int
  message : String
deriving Repr, DecidableEq

/-- One element of a `ResponseParams::Array`, i.e. one of the three
`BoxedType` implementations of `codec.rs`: `String`, `Option<u64>`,
`Option<String>`. -/
inductive RespElem where
  | eStr (s : String)
  | eOptU64 (n : Option Nat)
  | eOptStr (s : Option String)
deriving Repr, DecidableEq

/-- `ResponseParams`: a boolean, a heterogeneous array, or null. -/
inductive ResponseParams where
  | bool (b : Bool)
  | array (items : List RespElem)
  | null
deriving Repr, DecidableEq

/-- Modelled from the spec: `StratumMessage` is defined in
`stratum/src/message.rs`, which is absent from the corpus; the variants
and their field lists follow §3 of the spec and the constructor uses in
`codec.rs` and `connection.rs`. -/
inductive StratumMessage where
  | subscribe (id : RpcId) (userAgent protocolVersion : String) (sessionId : Option String)
  | authorize (id : RpcId) (workerName workerPassword : String)
  | setTarget (difficultyTarget : Nat)
  | notify (jobId epochChallenge : String) (address : Option String) (cleanJobs : Bool)
  | submit (id : RpcId) (workerName jobId nonce commitment proof : String)
  | response (id : RpcId) (result : Option ResponseParams) (error : Option RpcError)
deriving Repr, DecidableEq

/-- Serialization of an id. -/
def RpcId.toJson : RpcId → Json
  | .num n => .num n
  | .str s => .str s

/-- Serialization of an `Option<String>` (used for `session_id` and
`address` slots): `null` when absent. -/
def optStrToJson : Option String → Json
  | some s => .str s
  | none => .null

/-- Serialization of one array element (the `Serialize` impls of the
three `BoxedType`s). -/
def RespElem.toJson : RespElem → Json
  | .eStr s => .str s
  | .eOptU64 (some n) => .num n
  | .eOptU64 none => .null
  | .eOptStr (some s) => .str s
  | .eOptStr none => .null

/-- The `Serialize` impl of `ResponseParams` (codec.rs lines 66-99). -/
def ResponseParams.toJson : ResponseParams → Json
  | .bool b => .bool b
  | .array items => .arr (items.map RespElem.toJson)
  | .null => .null

/-- Serialization of a JSON-RPC error object. -/
def RpcError.toJson (e : RpcError) : Json :=
  .obj [("code", .num e.code), ("message", .str e.message)]

/-- `StratumCodec::encode` (codec.rs lines 159-217): the JSON object
written for each message.  Requests built with `id: None`
(`mining.set_target`, `mining.notify`) carry no `id` member. -/
def encode : StratumMessage → Json
  | .subscribe id ua pv sid =>
    .obj [("jsonrpc", .str "2.0"), ("method", .str "mining.subscribe"),
      ("params", .arr [.str ua, .str pv, optStrToJson sid]), ("id", id.toJson)]
  | .authorize id wn wp =>
    .obj [("jsonrpc", .str "2.0"), ("method", .str "mining.authorize"),
      ("params", .arr [.str wn, .str wp]), ("id", id.toJson)]
  | .setTarget dt =>
    .obj [("jsonrpc", .str "2.0"), ("method", .str "mining.set_target"),
      ("params", .arr [.num dt])]
  | .notify jid ec addr cj =>
    .obj [("jsonrpc", .str "2.0"), ("method", .str "mining.notify"),
      ("params", .arr [.str jid, .str ec, optStrToJson addr, .bool cj])]
  | .submit id wn jid nonce comm pf =>
    .obj [("jsonrpc", .str "2.0"), ("method", .str "mining.submit"),
      ("params", .arr [.str wn, .str jid, .str nonce, .str comm, .str pf]),
      ("id", id.toJson)]
  | .response id res err =>
    match err with
    | some e =>
      .obj [("jsonrpc", .str "2.0"), ("error", e.toJson), ("id", id.toJson)]
    | none =>
      .obj [("jsonrpc", .str "2.0"),
        ("result", match res with | some r => r.toJson | none => .null),
        ("id", id.toJson)]

/-- `serde_json::Number::as_u64`: defined exactly on `[0, 2^64)`. -/
def asU64 (n : Int) : Option Nat :=
  if 0 ≤ n ∧ n < 2 ^ 64 then some n.toNat else none

/-- `unwrap_str_value` (codec.rs lines 242-247). -/
def unwrapStr : Json → Except String String
  | .str s => .ok s
  | _ => .error "Param is not str"

/-- `unwrap_bool_value` (codec.rs lines 258-263). -/
def unwrapBool : Json → Except String Bool
  | .bool b => .ok b
  | _ => .error "Param is not bool"

/-- `unwrap_u64_value` (codec.rs lines 275-282). -/
def unwrapU64 : Json → Except String Nat
  | .num n =>
    match asU64 n with
    | some v => .ok v
    | none => .error "Param is not u64"
  | _ => .error "Param is not u64"

/-- Deserialization of an untagged id: a `u64` number or a string. -/
def RpcId.fromJson : Json → Option RpcId
  | .num n => (asU64 n).map RpcId.num
  | .str s => some (.str s)
  | _ => none

/-- Parse the optional `id` member of a frame: absent means `none`;
present, it must deserialize as an id or the whole frame is rejected. -/
def idFieldOfJson (fields : List (String × Json)) : Option (Option RpcId) :=
  match fields.lookup "id" with
  | none => some none
  | some v =>
    match RpcId.fromJson v with
    | some i => some (some i)
    | none => none

/-- A parsed `json_rpc_types::Request<Vec<Value>>`. -/
structure RpcRequest where
  method : String
  params : Option (List Json)
  id : Option RpcId

/-- Deserialization of `Request<Vec<Value>>` from an object: `jsonrpc`
must be `"2.0"`, `method` a string; `params` may be absent, null or an
array; `id` may be absent. -/
def requestOfJson (fields : List (String × Json)) : Option RpcRequest :=
  match fields.lookup "jsonrpc" with
  | some (.str "2.0") =>
    match fields.lookup "method" with
    | some (.str m) =>
      match fields.lookup "params" with
      | none =>
        (idFieldOfJson fields).map fun i => ⟨m, none, i⟩
      | some .null =>
        (idFieldOfJson fields).map fun i => ⟨m, none, i⟩
      | some (.arr xs) =>
        (idFieldOfJson fields).map fun i => ⟨m, some xs, i⟩
      | some _ => none
    | _ => none
  | _ => none

/-- The `Deserialize` impl of `ResponseParams` (codec.rs lines 112-142):
one array element; unsupported kinds yield `none` and are elided. -/
def respElemFromJson : Json → Option RespElem
  | .null => some (.eOptStr none)
  | .str s => some (.eStr s)
  | .num n => some (.eOptU64 (asU64 n))
  | _ => none

/-- The `Deserialize` impl of `ResponseParams`: bool, array (with
unsupported elements elided) or null; anything else is rejected. -/
def responseParamsFromJson : Json → Option ResponseParams
  | .bool b => some (.bool b)
  | .arr xs => some (.array (xs.filterMap respElemFromJson))
  | .null => some .null
  | _ => none

/-- Deserialization of a JSON-RPC error object. -/
def rpcErrorFromJson : Json → Option RpcError
  | .obj fields =>
    match fields.lookup "code", fields.lookup "message" with
    | some (.num c), some (.str m) => some ⟨c, m⟩
    | _, _ => none
  | _ => none

/-- Deserialization of `Response<ResponseParams, ()>` from an object:
the payload is the `result` member if present, else the `error` member. -/
def responseOfJson (fields : List (String × Json)) :
    Option (Option RpcId × (ResponseParams ⊕ RpcError)) :=
  match fields.lookup "jsonrpc" with
  | some (.str "2.0") =>
    match idFieldOfJson fields with
    | none => none
    | some i =>
      match fields.lookup "result" with
      | some r => (responseParamsFromJson r).map fun p => (i, .inl p)
      | none =>
        match fields.lookup "error" with
        | some e => (rpcErrorFromJson e).map fun err => (i, .inr err)
        | none => none
  | _ => none

/-- `id.unwrap_or(Id::Num(0))`. -/
def idOrZero : Option RpcId → RpcId
  | some i => i
  | none => .num 0

/-- The request arm of `StratumCodec::decode` (codec.rs lines 341-408):
dispatch on the method name, check the parameter arity, and unwrap each
parameter. -/
def decodeRequest (method : String) (id : Option RpcId) (params : List Json) :
    Except String StratumMessage :=
  match method with
  | "mining.subscribe" =>
    match params with
    | [p0, p1, p2] => do
      let ua ← unwrapStr p0
      let pv ← unwrapStr p1
      let sid ← match p2 with
        | .str s => Except.ok (some s)
        | .null => Except.ok none
        | _ => Except.error "Invalid params"
      Except.ok (.subscribe (idOrZero id) ua pv sid)
    | _ => .error "Invalid params"
  | "mining.authorize" =>
    match params with
    | [p0, p1] => do
      let wn ← unwrapStr p0
      let wp ← unwrapStr p1
      Except.ok (.authorize (idOrZero id) wn wp)
    | _ => .error "Invalid params"
  | "mining.set_target" =>
    match params with
    | [p0] => do
      let dt ← unwrapU64 p0
      Except.ok (.setTarget dt)
    | _ => .error "Invalid params"
  | "mining.notify" =>
    match params with
    | [p0, p1, p2, p3] => do
      let jid ← unwrapStr p0
      let ec ← unwrapStr p1
      let addr ← match p2 with
        | .str s => Except.ok (some s)
        | .null => Except.ok none
        | _ => Except.error "Invalid params"
      let cj ← unwrapBool p3
      Except.ok (.notify jid ec addr cj)
    | _ => .error "Invalid params"
  | "mining.submit" =>
    match params with
    | [p0, p1, p2, p3, p4] => do
      let wn ← unwrapStr p0
      let jid ← unwrapStr p1
      let nonce ← unwrapStr p2
      let comm ← unwrapStr p3
      let pf ← unwrapStr p4
      Except.ok (.submit (idOrZero id) wn jid nonce comm pf)
    | _ => .error "Invalid params"
  | _ => .error "Unknown method"

/-- `StratumCodec::decode` (codec.rs lines 301-419) on a parsed frame:
an object with a `method` member is a request, otherwise a response. -/
def decode (j : Json) : Except String StratumMessage :=
  match j with
  | .obj fields =>
    match fields.lookup "method" with
    | some _ =>
      match requestOfJson fields with
      | none => .error "Invalid request"
      | some req =>
        match req.params with
        | none => .error "No params"
        | some params => decodeRequest req.method req.id params
    | none =>
      match responseOfJson fields with
      | none => .error "Invalid response"
      | some (i, .inl payload) => .ok (.response (idOrZero i) (some payload) none)
      | some (i, .inr err) => .ok (.response (idOrZero i) none (some err))
  | _ => .error "Not an object"

/-! ### Well-formedness and the round trip (claim C2) -/

/-- A well-formed id: the numeric form is in `u64` range. -/
def RpcIdWF : RpcId → Prop
  | .num n => n < 2 ^ 64
  | .str _ => True

/-- A well-formed array element per the claim — a string, a present
`u64`, or the null element (the canonical decoded forms). -/
def RespElemWF : RespElem → Prop
  | .eStr _ => True
  | .eOptU64 (some n) => n < 2 ^ 64
  | .eOptU64 none => False
  | .eOptStr none => True
  | .eOptStr (some _) => False

/-- Well-formed response params: arrays hold well-formed elements. -/
def ResponseParamsWF : ResponseParams → Prop
  | .bool _ => True
  | .array items => ∀ e ∈ items, RespElemWF e
  | .null => True

/-- A well-formed message: ids and `u64` fields in range, and a response
carrying exactly one of a well-formed result or an error. -/
def WellFormed : StratumMessage → Prop
  | .subscribe id _ _ _ => RpcIdWF id
  | .authorize id _ _ => RpcIdWF id
  | .setTarget dt => dt < 2 ^ 64
  | .notify _ _ _ _ => True
  | .submit id _ _ _ _ _ => RpcIdWF id
  | .response id res err =>
    RpcIdWF id ∧
      match res, err with
      | some r, none => ResponseParamsWF r
      | none, some _ => True
      | _, _ => False

theorem asU64_natCast (n : Nat) (h : n < 2 ^ 64) : asU64 (n : Int) = some n := by
  have h0 : (0 : Int) ≤ n := Int.natCast_nonneg n
  have h1 : (n : Int) < 2 ^ 64 := by exact_mod_cast h
  rw [asU64, if_pos ⟨h0, h1⟩, Int.toNat_natCast]

theorem RpcId_roundtrip (i : RpcId) (h : RpcIdWF i) :
    RpcId.fromJson i.toJson = some i := by
  cases i with
  | num n => simp [RpcId.toJson, RpcId.fromJson, asU64_natCast n h]
  | str s => rfl

theorem respElem_roundtrip (e : RespElem) (h : RespElemWF e) :
    respElemFromJson e.toJson = some e := by
  cases e with
  | eStr s => rfl
  | eOptU64 n =>
    cases n with
    | none => exact h.elim
    | some v => simp [RespElem.toJson, respElemFromJson, asU64_natCast v h]
  | eOptStr s =>
    cases s with
    | none => rfl
    | some v => exact h.elim

theorem respElems_roundtrip (items : List RespElem)
    (h : ∀ e ∈ items, RespElemWF e) :
    (items.map RespElem.toJson).filterMap respElemFromJson = items := by
  induction items with
  | nil => rfl
  | cons e rest ih =>
    simp only [List.map_cons, List.filterMap_cons,
      respElem_roundtrip e (h e (List.mem_cons_self e rest))]
    rw [ih fun x hx => h x (List.mem_cons_of_mem e hx)]

theorem responseParams_roundtrip (r : ResponseParams) (h : ResponseParamsWF r) :
    responseParamsFromJson r.toJson = some r := by
  cases r with
  | bool b => rfl
  | null => rfl
  | array items =>
    simp [ResponseParams.toJson, responseParamsFromJson, respElems_roundtrip items h]

theorem rpcError_roundtrip (e : RpcError) : rpcErrorFromJson e.toJson = some e := rfl

/-- C2: decoding the encoding of any well-formed message yields the
message back. -/
theorem claim_C2 (m : StratumMessage) (h : WellFormed m) :
    decode (encode m) = .ok m := by
  cases m with
  | subscribe i ua pv sid =>
    cases sid with
    | none =>
      simp [encode, decode, requestOfJson, idFieldOfJson, decodeRequest,
        optStrToJson, RpcId_roundtrip i h, idOrZero, List.lookup, unwrapStr,
        bind, Except.bind]
    | some s =>
      simp [encode, decode, requestOfJson, idFieldOfJson, decodeRequest,
        optStrToJson, RpcId_roundtrip i h, idOrZero, List.lookup, unwrapStr,
        bind, Except.bind]
  | authorize i wn wp =>
    simp [encode, decode, requestOfJson, idFieldOfJson, decodeRequest,
      RpcId_roundtrip i h, idOrZero, List.lookup, unwrapStr, bind, Except.bind]
  | setTarget dt =>
    have step : decode (encode (.setTarget dt)) =
        decodeRequest "mining.set_target" none [Json.num (dt : Int)] := rfl
    rw [step]
    show (do
        let v ← unwrapU64 (Json.num (dt : Int))
        Except.ok (StratumMessage.setTarget v)) = Except.ok (.setTarget dt)
    rw [unwrapU64, asU64_natCast dt h]
    rfl
  | notify jid ec addr cj =>
    cases addr with
    | none =>
      simp [encode, decode, requestOfJson, idFieldOfJson, decodeRequest,
        optStrToJson, List.lookup, unwrapStr, unwrapBool, bind, Except.bind]
    | some s =>
      simp [encode, decode, requestOfJson, idFieldOfJson, decodeRequest,
        optStrToJson, List.lookup, unwrapStr, unwrapBool, bind, Except.bind]
  | submit i wn jid nonce comm pf =>
    simp [encode, decode, requestOfJson, idFieldOfJson, decodeRequest,
      RpcId_roundtrip i h, idOrZero, List.lookup, unwrapStr, bind, Except.bind]
  | response i res err =>
    obtain ⟨hi, h2⟩ := h
    cases res with
    | some r =>
      cases err with
      | none =>
        simp [encode, decode, responseOfJson, idFieldOfJson,
          RpcId_roundtrip i hi, responseParams_roundtrip r h2, idOrZero,
          List.lookup]
      | some e => exact h2.elim
    | none =>
      cases err with
      | some e =>
        simp [encode, decode, responseOfJson, idFieldOfJson,
          RpcId_roundtrip i hi, rpcError_roundtrip e, idOrZero, List.lookup]
      | none => exact h2.elim

/-- C2 witness: a response with an array result holding the three
supported element kinds round-trips. -/
theorem claim_C2_witness :
    WellFormed (.response (.num 7)
      (some (.array [.eOptStr none, .eStr "abc", .eOptU64 (some 42)])) none) ∧
    decode (encode (.response (.num 7)
      (some (.array [.eOptStr none, .eStr "abc", .eOptU64 (some 42)])) none)) =
      .ok (.response (.num 7)
        (some (.array [.eOptStr none, .eStr "abc", .eOptU64 (some 42)])) none) := by
  have hwf : WellFormed (.response (.num 7)
      (some (.array [.eOptStr none, .eStr "abc", .eOptU64 (some 42)])) none) := by
    refine ⟨by norm_num [RpcIdWF], ?_⟩
    show ∀ e ∈ ([.eOptStr none, .eStr "abc", .eOptU64 (some 42)] : List RespElem),
      RespElemWF e
    intro e he
    simp only [List.mem_cons, List.not_mem_nil, or_false] at he
    rcases he with rfl | rfl | rfl
    · trivial
    · trivial
    · show (42 : Nat) < 2 ^ 64
      norm_num
  exact ⟨hwf, claim_C2 _ hwf⟩

/-! ### Claim C10: frames without an id -/

/-- The id carried by a decoded message, if its variant has one. -/
def msgId : StratumMessage → Option RpcId
  | .subscribe i _ _ _ => some i
  | .authorize i _ _ => some i
  | .setTarget _ => none
  | .notify _ _ _ _ => none
  | .submit i _ _ _ _ _ => some i
  | .response i _ _ => some i

theorem requestOfJson_id (fields : List (String × Json)) (req : RpcRequest)
    (h : requestOfJson fields = some req) :
    idFieldOfJson fields = some req.id := by
  unfold requestOfJson at h
  split at h
  · split at h
    · split at h
      all_goals
        first
        | exact Option.noConfusion h
        | (obtain ⟨i, hi, hh⟩ := Option.map_eq_some'.mp h
           subst hh
           exact hi)
    · exact Option.noConfusion h
  · exact Option.noConfusion h

theorem responseOfJson_id (fields : List (String × Json)) (i : Option RpcId)
    (pay : ResponseParams ⊕ RpcError) (h : responseOfJson fields = some (i, pay)) :
    idFieldOfJson fields = some i := by
  unfold responseOfJson at h
  split at h
  · split at h
    · exact Option.noConfusion h
    · rename_i i' hif
      split at h
      · obtain ⟨p, hp, hh⟩ := Option.map_eq_some'.mp h
        obtain ⟨rfl, -⟩ := Prod.mk.injEq .. ▸ hh
        exact hif
      · split at h
        · obtain ⟨e, he, hh⟩ := Option.map_eq_some'.mp h
          obtain ⟨rfl, -⟩ := Prod.mk.injEq .. ▸ hh
          exact hif
        · exact Option.noConfusion h
  · exact Option.noConfusion h

theorem decodeRequest_id (method : String) (i : Option RpcId) (params : List Json)
    (m : StratumMessage) (h : decodeRequest method i params = .ok m) :
    msgId m = none ∨ msgId m = some (idOrZero i) := by
  unfold decodeRequest at h
  simp only [bind, Except.bind] at h
  iterate 12
    all_goals
      first
      | exact Except.noConfusion h
      | (injection h with h2; subst h2; first | exact Or.inr rfl | exact Or.inl rfl)
      | split at h

/-- C10: a frame that decodes successfully while carrying no `id` member
yields a message whose id — when its variant has one — is the substitute
`Id::Num(0)`. -/
theorem claim_C10 (fields : List (String × Json)) (m : StratumMessage)
    (hid : fields.lookup "id" = none)
    (hm : decode (.obj fields) = .ok m) :
    msgId m = none ∨ msgId m = some (.num 0) := by
  have hidf : idFieldOfJson fields = some none := by
    unfold idFieldOfJson; rw [hid]
  unfold decode at hm
  cases hmeth : fields.lookup "method" with
  | some j =>
    simp only [hmeth] at hm
    cases hreqj : requestOfJson fields with
    | none => simp only [hreqj] at hm; exact Except.noConfusion hm
    | some req =>
      simp only [hreqj] at hm
      have hri : req.id = none := by
        have h2 := requestOfJson_id fields req hreqj
        rw [hidf] at h2
        exact (Option.some.injEq .. ▸ h2.symm)
      cases hp : req.params with
      | none => simp only [hp] at hm; exact Except.noConfusion hm
      | some params =>
        simp only [hp, hri] at hm
        exact decodeRequest_id req.method none params m hm
  | none =>
    simp only [hmeth] at hm
    cases hresp : responseOfJson fields with
    | none => simp only [hresp] at hm; exact Except.noConfusion hm
    | some ip =>
      obtain ⟨i, pay⟩ := ip
      have hi : i = none := by
        have h2 := responseOfJson_id fields i pay hresp
        rw [hidf] at h2
        exact (Option.some.injEq .. ▸ h2.symm)
      subst hi
      simp only [hresp] at hm
      cases pay with
      | inl p =>
        injection hm with h2
        subst h2
        exact Or.inr rfl
      | inr e =>
        injection hm with h2
        subst h2
        exact Or.inr rfl

/-- C10 witness: a `mining.subscribe` frame with no `id` member decodes
successfully, and the message carries `Id::Num(0)`. -/
theorem claim_C10_witness :
    List.lookup "id" [("jsonrpc", Json.str "2.0"),
        ("method", Json.str "mining.subscribe"),
        ("params", Json.arr [.str "miner/1.0", .str "AleoStratum/2.0.0", .null])] =
      none ∧
    decode (.obj [("jsonrpc", Json.str "2.0"),
        ("method", Json.str "mining.subscribe"),
        ("params", Json.arr [.str "miner/1.0", .str "AleoStratum/2.0.0", .null])]) =
      .ok (.subscribe (.num 0) "miner/1.0" "AleoStratum/2.0.0" none) ∧
    (msgId (.subscribe (.num 0) "miner/1.0" "AleoStratum/2.0.0" none) = none ∨
      msgId (.subscribe (.num 0) "miner/1.0" "AleoStratum/2.0.0" none) =
        some (.num 0)) :=
  ⟨rfl, rfl,
    claim_C10 [("jsonrpc", Json.str "2.0"),
        ("method", Json.str "mining.subscribe"),
        ("params", Json.arr [.str "miner/1.0", .str "AleoStratum/2.0.0", .null])]
      (.subscribe (.num 0) "miner/1.0" "AleoStratum/2.0.0" none) rfl rfl⟩

/-! ## Submit validation (`src/connection.rs`, `Connection::run`) -/

/-- One hex digit as accepted by `hex::decode`. -/
def hexDigit (c : Char) : Option Nat :=
  if '0' ≤ c ∧ c ≤ '9' then some (c.toNat - 48)
  else if 'a' ≤ c ∧ c ≤ 'f' then some (c.toNat - 87)
  else if 'A' ≤ c ∧ c ≤ 'F' then some (c.toNat - 55)
  else none

/-- `hex::decode` on a char list: pairs of hex digits become bytes; an
odd length or a non-hex character is an error. -/
def hexDecodeAux : List Char → Option (List Nat)
  | [] => some []
  | [_] => none
  | hi :: lo :: rest =>
    match hexDigit hi, hexDigit lo, hexDecodeAux rest with
    | some h, some l, some bytes => some ((h * 16 + l) :: bytes)
    | _, _, _ => none

/-- `hex::decode` on a string. -/
def hexDecode (s : String) : Option (List Nat) := hexDecodeAux s.toList

/-- `u32::from_le_bytes` / `u64::from_le_bytes`: a little-endian byte
list as an integer. -/
def fromLeBytes (bs : List Nat) : Nat := bs.foldr (fun b acc => b + 256 * acc) 0

/-- Outcome of handling one `mining.submit` frame in the Active loop:
the validated submission is forwarded to the hub, or the loop `break`s
(clean abort, followed by one `ProverDisconnected`), or the task panics. -/
inductive SubmitOutcome where
  | forwarded (epochNumber nonceValue : Nat)
  | abort
  | panicked
deriving Repr, DecidableEq

/-- `Connection::run`'s handling of `StratumMessage::Submit` (connection.rs
lines 142-187), with the external snarkvm deserializers
(`KZGCommitment::from_bytes_le`, `KZGProof::from_bytes_le`) abstracted as
predicates on the decoded bytes.  `job_id` is checked to decode to exactly
4 bytes (`break` otherwise); the nonce bytes go straight into
`u64::from_le_bytes(..try_into().unwrap())` with no length check, so any
decoded length other than 8 panics the task. -/
def handle_submit (parseCommitment parseProof : List Nat → Bool)
    (jobId nonce commitment proof : String) : SubmitOutcome :=
  match hexDecode jobId with
  | none => .abort
  | some jobBytes =>
    if jobBytes.length ≠ 4 then .abort
    else
      match hexDecode nonce with
      | none => .abort
      | some nonceBytes =>
        if nonceBytes.length ≠ 8 then .panicked
        else
          match hexDecode commitment with
          | none => .abort
          | some commitmentBytes =>
            if ¬ parseCommitment commitmentBytes then .abort
            else
              match hexDecode proof with
              | none => .abort
              | some proofBytes =>
                if ¬ parseProof proofBytes then .abort
                else .forwarded (fromLeBytes jobBytes) (fromLeBytes nonceBytes)

/-- C4 (the code contradicts it): a submit whose nonce hex-decodes to 2
bytes — well-formed hex, wrong length — panics the connection task at
`try_into().unwrap()` instead of aborting cleanly; a correctly sized
nonce is reinterpreted as the little-endian `u64`. -/
theorem claim_C4 :
    handle_submit (fun _ => true) (fun _ => true) "00000000" "aabb" "" "" =
      .panicked ∧
    handle_submit (fun _ => true) (fun _ => true) "01000000" "0100000000000000" "" "" =
      .forwarded 1 1 := by decide

/-! ## The handshake (`Connection::handshake` / `Connection::run`) -/

/-- A semantic version `MAJOR.MINOR.PATCH`. -/
structure SemVer where
  major : Nat
  minor : Nat
  patch : Nat
deriving Repr, DecidableEq

/-- `MIN_SUPPORTED_VERSION = Version::new(2, 0, 0)`. -/
def minSupportedVersion : SemVer := ⟨2, 0, 0⟩

/-- `MAX_SUPPORTED_VERSION = Version::new(2, 0, 0)`. -/
def maxSupportedVersion : SemVer := ⟨2, 0, 0⟩

/-- Strict order on versions: numeric components, lexicographically
(pre-release tags never arise for the frames at issue). -/
def SemVer.lt (a b : SemVer) : Bool :=
  a.major < b.major ||
    (a.major == b.major &&
      (a.minor < b.minor || (a.minor == b.minor && a.patch < b.patch)))

/-- Rust `str::split(sep).collect::<Vec<_>>()` on a char list. -/
def splitOnChar (sep : Char) : List Char → List (List Char)
  | [] => [[]]
  | c :: rest =>
    match splitOnChar sep rest with
    | [] => [[]]
    | g :: gs => if c = sep then [] :: g :: gs else (c :: g) :: gs

/-- All-digit decimal parse (the numeric component parse of `semver`);
empty or non-digit input fails. -/
def parseDecimal (cs : List Char) : Option Nat :=
  if cs.isEmpty then none
  else if cs.all Char.isDigit then
    some (cs.foldl (fun a c => a * 10 + (c.toNat - 48)) 0)
  else none

/-- `semver::Version::parse` restricted to plain numeric versions:
exactly three dot-separated decimal components. -/
def parseSemVer (cs : List Char) : Option SemVer :=
  match splitOnChar '.' cs with
  | [a, b, c] =>
    match parseDecimal a, parseDecimal b, parseDecimal c with
    | some x, some y, some z => some ⟨x, y, z⟩
    | _, _, _ => none
  | _ => none

/-- The hub-bound `ServerMessage` variant the handshake path can emit. -/
inductive ServerMsg where
  | proverDisconnected (peer : SocketAddr)
deriving DecidableEq

/-- `Connection::handshake` (connection.rs lines 206-272) on the decoded
first frame: accept a `Subscribe` whose protocol version splits as
`AleoStratum/<semver>` with the version inside the supported range,
replying `Response(id, [null, null, pool_address])`; reject anything
else. -/
def handshake (poolAddress : String) (msg : StratumMessage) :
    Option ((String × SemVer) × StratumMessage) :=
  match msg with
  | .subscribe id ua pv _ =>
    match splitOnChar '/' pv.toList with
    | [name, vs] =>
      if name ≠ "AleoStratum".toList then none
      else
        match parseSemVer vs with
        | none => none
        | some v =>
          if v.lt minSupportedVersion || maxSupportedVersion.lt v then none
          else
            some ((ua, v),
              .response id (some (.array [.eOptStr none, .eOptStr none,
                .eOptStr (some poolAddress)])) none)
    | _ => none
  | _ => none

/-- The handshake phase of `Connection::run` (connection.rs lines 82-91):
on success the response frame has been sent and the connection proceeds;
on failure nothing is sent, exactly one `ProverDisconnected` goes to the
hub, and the task returns (connection closed). -/
def runHandshakePhase (peer : SocketAddr) (poolAddress : String)
    (msg : StratumMessage) :
    List StratumMessage × List ServerMsg × Bool :=
  match handshake poolAddress msg with
  | some (_, resp) => ([resp], [], false)
  | none => ([], [.proverDisconnected peer], true)

/-- C6: a subscribe whose protocol version has the `AleoStratum` prefix
but a semver outside the supported range is refused: no response frame is
sent, the connection closes, and exactly one `ProverDisconnected(peer)`
reaches the hub. -/
theorem claim_C6 (peer : SocketAddr) (pool : String) (id : RpcId)
    (ua pv : String) (sid : Option String) (vs : List Char) (v : SemVer)
    (hsplit : splitOnChar '/' pv.toList = ["AleoStratum".toList, vs])
    (hv : parseSemVer vs = some v)
    (hout : (v.lt minSupportedVersion || maxSupportedVersion.lt v) = true) :
    runHandshakePhase peer pool (.subscribe id ua pv sid) =
      ([], [.proverDisconnected peer], true) := by
  unfold runHandshakePhase handshake
  simp only [hsplit, hv, hout]
  simp

/-- C6 witness: `AleoStratum/1.9.0` (the spec's literal scenario) is
refused with one `ProverDisconnected` and no response. -/
theorem claim_C6_witness :
    runHandshakePhase ⟨.v4 10 0 0 9, 4100⟩ "aleo1pool"
      (.subscribe (.num 1) "miner/1.0" "AleoStratum/1.9.0" none) =
      ([], [.proverDisconnected ⟨.v4 10 0 0 9, 4100⟩], true) :=
  claim_C6 ⟨.v4 10 0 0 9, 4100⟩ "aleo1pool" (.num 1) "miner/1.0"
    "AleoStratum/1.9.0" none "1.9.0".toList ⟨1, 9, 0⟩
    (by decide) (by decide) (by decide)
